import Mathlib

/-!
Shallow embedding of the FreeLog buffered multi-destination log dispatcher
(packages/rust-client/src/lib.rs and packages/models/src/lib.rs), together
with theorems checking the natural-language specification against it.

Machine integers (`isize`/`usize`) are modelled as `Int`/`Nat` (the program
never performs arithmetic on them that could overflow in the modelled
scenarios); `f64` payloads are modelled as finite rationals; JSON encoding
and decoding are modelled at the JSON-value level, with the number
representation distinguishing integral and fractional numbers the way
`serde_json`'s `Number` does.
-/

namespace FreeLog

/-- The client crate's `Level` enum (rust-client/src/lib.rs). -/
inductive Level where
  | Trace
  | Debug
  | Info
  | Warn
  | Error
deriving DecidableEq, Repr

/-- The models crate's `LogLevel` enum (models/src/lib.rs). -/
inductive LogLevel where
  | Trace
  | Debug
  | Info
  | Warn
  | Error
deriving DecidableEq, Repr

/-- `fn level_int(level: Level) -> u8` (rust-client/src/lib.rs). -/
def level_int : Level → Nat
  | .Trace => 0
  | .Debug => 1
  | .Info => 2
  | .Warn => 3
  | .Error => 4

/-- `impl From<&LogLevel> for Level` (rust-client/src/lib.rs). -/
def Level.ofLogLevel : LogLevel → Level
  | .Trace => .Trace
  | .Debug => .Debug
  | .Info => .Info
  | .Warn => .Warn
  | .Error => .Error

/-- `LogLevel::from_str(level.as_str()).unwrap()`: the conversion from a
tracing level (modelled by `Level`, which is isomorphic to it) to the models
crate's `LogLevel`, by way of the SCREAMING_SNAKE_CASE name. -/
def LogLevel.ofLevel : Level → LogLevel
  | .Trace => .Trace
  | .Debug => .Debug
  | .Info => .Info
  | .Warn => .Warn
  | .Error => .Error

/-- `LogLevel`'s serde serialization name (SCREAMING_SNAKE_CASE). -/
def LogLevel.asStr : LogLevel → String
  | .Trace => "TRACE"
  | .Debug => "DEBUG"
  | .Info => "INFO"
  | .Warn => "WARN"
  | .Error => "ERROR"

/-- `LogLevel`'s serde deserialization from its SCREAMING_SNAKE_CASE name. -/
def LogLevel.fromStr (s : String) : Option LogLevel :=
  if s = "TRACE" then some .Trace
  else if s = "DEBUG" then some .Debug
  else if s = "INFO" then some .Info
  else if s = "WARN" then some .Warn
  else if s = "ERROR" then some .Error
  else none

/-- A model of `f64`: either a finite value (modelled as a rational, since
every finite double is one) or one of the non-finite values NaN, +∞, -∞. -/
inductive F64 where
  | finite (q : Rat)
  | nan
  | inf
  | negInf
deriving DecidableEq, Repr

/-- `enum LogComponent` (models/src/lib.rs).  `isize` is modelled as `Int`,
`usize` as `Nat`, and the `f64` payload of `Real` as `F64`. -/
inductive LogComponent where
  | Integer (n : Int)
  | UInteger (n : Nat)
  | Real (x : F64)
  | String (s : String)
  | Boolean (b : Bool)
  | Undefined
  | Null
deriving DecidableEq, Repr

/-- A model of `serde_json::Value`.  Integral JSON numbers (serde_json's
`PosInt`/`NegInt` representations) are `int`; numbers carrying a fractional
representation (serde_json's `Float`) are `real`. -/
inductive Json where
  | null
  | bool (b : Bool)
  | int (n : Int)
  | real (q : Rat)
  | str (s : String)
  | arr (xs : List Json)
  | obj (kvs : List (String × Json))

/-- `impl Serialize for LogComponent` (models/src/lib.rs): `Integer` via
`serialize_i64`, `UInteger` via `serialize_u64`, `Real` via `serialize_f64`
— which, in serde_json, writes a JSON number for a finite double but null
for a non-finite one (NaN, ±∞) — and both `Undefined` and `Null` via
`serialize_none` (JSON null). -/
def LogComponent.serialize : LogComponent → Json
  | .Integer n => .int n
  | .UInteger n => .int (n : Int)
  | .Real (.finite q) => .real q
  | .Real .nan => .null
  | .Real .inf => .null
  | .Real .negInf => .null
  | .String s => .str s
  | .Boolean b => .bool b
  | .Undefined => .null
  | .Null => .null

/-- `impl Deserialize for LogComponent` (models/src/lib.rs): the `is_u64`
check comes first, so a non-negative integral number deserializes to
`UInteger`; then `is_i64`, `is_f64`, `is_string`, `is_boolean`, `is_null`,
and anything else (arrays, objects) becomes `Undefined`. -/
def LogComponent.deserialize : Json → LogComponent
  | .int n => if 0 ≤ n then .UInteger n.toNat else .Integer n
  | .real q => .Real (.finite q)
  | .str s => .String s
  | .bool b => .Boolean b
  | .null => .Null
  | .arr _ => .Undefined
  | .obj _ => .Undefined

/-- `struct LogEntryRequest` as constructed by the client's `on_event`
(rust-client/src/lib.rs); the models crate's serde implementation covers the
`level`, `values`, `ts` and `properties` fields, with `properties` skipped
when absent.  `usize` timestamps are modelled as `Nat`; the `properties`
`HashMap` is modelled as a key-unique association list. -/
structure LogEntryRequest where
  level : LogLevel
  values : List LogComponent
  ts : Nat
  target : Option String
  module_path : Option String
  location : Option String
  properties : Option (List (String × LogComponent))
deriving DecidableEq, Repr

/-- Serde serialization of one `LogEntryRequest` (camelCase field names,
`properties` omitted when `None`). -/
def LogEntryRequest.serialize (e : LogEntryRequest) : Json :=
  .obj ([("level", .str e.level.asStr),
         ("values", .arr (e.values.map LogComponent.serialize)),
         ("ts", .int (e.ts : Int))] ++
    (match e.properties with
     | none => []
     | some ps => [("properties", .obj (ps.map fun kv => (kv.1, kv.2.serialize)))]))

/-- `Value::get` on an object's field list. -/
def lookupField (kvs : List (String × Json)) (k : String) : Option Json :=
  (kvs.find? fun kv => kv.1 = k).map fun kv => kv.2

/-- Serde deserialization of one `LogEntryRequest` from a JSON value (the
derived `Deserialize`, as used by the writer server): `level`, `values` and
`ts` are required, `properties` is optional and defaults to absent; an
explicit `properties: null` is also accepted as absent (serde's `Option`
handling). -/
def LogEntryRequest.deserialize (v : Json) : Option LogEntryRequest :=
  match v with
  | .obj kvs => do
      let lvl ← match lookupField kvs "level" with
        | some (.str s) => LogLevel.fromStr s
        | _ => none
      let vals ← match lookupField kvs "values" with
        | some (.arr xs) => some (xs.map LogComponent.deserialize)
        | _ => none
      let ts ← match lookupField kvs "ts" with
        | some (.int n) => if 0 ≤ n then some n.toNat else none
        | _ => none
      let props ← match lookupField kvs "properties" with
        | none => some none
        | some .null => some none
        | some (.obj ps) =>
            some (some (ps.map fun kv => (kv.1, LogComponent.deserialize kv.2)))
        | some _ => none
      some ⟨lvl, vals, ts, none, none, none, props⟩
  | _ => none

/-- Escaping of one character inside a JSON string literal (the two cases
that matter for the model: quote and backslash). -/
def escapeChar (c : Char) : String :=
  if c = '\"' then "\\\""
  else if c = '\\' then "\\\\"
  else String.singleton c

/-- Escaping of a string for inclusion in a JSON string literal. -/
def escapeString (s : String) : String :=
  String.join (s.toList.map escapeChar)

mutual

/-- A model of `serde_json::to_string`: compact JSON text. -/
def jsonToString : Json → String
  | .null => "null"
  | .bool true => "true"
  | .bool false => "false"
  | .int n => toString n
  | .real q => toString q
  | .str s => "\"" ++ escapeString s ++ "\""
  | .arr xs => "[" ++ String.intercalate "," (jsonListToString xs) ++ "]"
  | .obj kvs => "\x7b" ++ String.intercalate "," (jsonObjToString kvs) ++ "\x7d"

/-- Elementwise rendering of a JSON array's members. -/
def jsonListToString : List Json → List String
  | [] => []
  | x :: xs => jsonToString x :: jsonListToString xs

/-- Elementwise rendering of a JSON object's fields. -/
def jsonObjToString : List (String × Json) → List String
  | [] => []
  | kv :: kvs =>
      ("\"" ++ escapeString kv.1 ++ "\":" ++ jsonToString kv.2) :: jsonObjToString kvs

end

/-- Rendering of a `serde_json::Value` for the dispatcher's
`"Received unsuccessful response: ..."` messages (the source uses the `Debug`
formatting of the value; the model renders the same data compactly). -/
def jsonDebug (v : Json) : String :=
  jsonToString v

/-- `struct ApiWriterConfig` (rust-client/src/lib.rs). -/
structure ApiWriterConfig where
  user_agent : String
  api_url : String
  log_level : Level
deriving DecidableEq, Repr

/-- `struct FileWriterConfig` (rust-client/src/lib.rs); the path is a string. -/
structure FileWriterConfig where
  path : String
  log_level : Level
deriving DecidableEq, Repr

/-- `struct LogsConfig` (rust-client/src/lib.rs), restricted to the fields the
dispatcher reads (the env-filter and extra layers play no role in flushing). -/
structure LogsConfig where
  user_agent : String
  api_writers : List ApiWriterConfig
  file_writers : List FileWriterConfig
  log_level : Level
  auto_flush : Bool
  auto_flush_on_close : Bool
deriving Repr

/-- `enum FlushError` (rust-client/src/lib.rs).  The Rust variants wrap
`std::io::Error`, `reqwest::Error` and `serde_json::Error` values; the model
carries their messages.  `IoError` models the variant the source names `IO`. -/
inductive FlushError where
  | IoError (msg : String)
  | Reqwest (msg : String)
  | Serde (msg : String)
  | Unsuccessful (msg : String)
  | Multi (errs : List FlushError)

/-- The mutable state of a `FreeLogLayer` (rust-client/src/lib.rs): the event
buffer, the lazily-initialized file-writer list (`None` until the first
initializing flush; each opened writer is the configured minimum level paired
with the index of the file config its handle was opened for), and the ambient
property overlay. -/
structure FreeLogLayerState where
  buffer : List LogEntryRequest
  file_writers : Option (List (Level × Nat))
  properties : Option (List (String × LogComponent))
deriving Repr

/-- `FreeLogLayer::new`: empty buffer, no writers, no overlay. -/
def FreeLogLayer.new : FreeLogLayerState :=
  ⟨[], none, none⟩

/-- One observable I/O operation performed during a flush, for stating which
destinations were touched: an open attempt on file destination `i`, a POST of
`body` to remote destination `i`, a `write_all` of `line` on file destination
`i`, or a `writer.flush()` on file destination `i`. -/
inductive Op where
  | file_open (i : Nat)
  | remote_send (i : Nat) (body : String)
  | file_write (i : Nat) (line : String)
  | file_flush (i : Nat)
deriving DecidableEq, Repr

/-- The environment's answer for one remote POST: a transport-level failure
from `send()`, or a response carrying a status code, the result of `text()`
(`none` models a failure to read the body text) and the result of `json()`
(`Except.error` models a body-parse failure). -/
structure HttpResponse where
  status : Nat
  text : Option String
  body : Except String Json

/-- Outcome of `CLIENT.post(...).send()` for one destination. -/
inductive SendOutcome where
  | transportError (msg : String)
  | response (r : HttpResponse)

/-- The environment's answers for one file destination within one flush:
the result of the lazy `open` (`some msg` = failure), the result of the
`j`-th `write_all` of this flush, and the result of `writer.flush()`. -/
structure FileIoEnv where
  openResult : Option String
  writeResults : Nat → Option String
  flushResult : Option String

/-- The external world for one `flush()` call: per remote-destination send
outcomes and per file-destination I/O outcomes, both indexed by the position
of the destination in the configuration. -/
structure FlushEnv where
  send : Nat → SendOutcome
  file : Nat → FileIoEnv

/-- The per-destination filter inside `flush()`:
`buffer.iter().filter(|r| level_int(r.level.into()) >= level_int(min))`. -/
def destEntries (buffer : List LogEntryRequest) (min : Level) : List LogEntryRequest :=
  buffer.filter fun r => decide (level_int min ≤ level_int (Level.ofLogLevel r.level))

/-- The first-flush lazy initialization loop over the configured file
destinations, starting at config index `i`: returns the collected open
errors (in config order), the successfully opened writers, and the trace of
open attempts. -/
def openWritersAux (env : FlushEnv) : List FileWriterConfig → Nat →
    List FlushError × List (Level × Nat) × List Op
  | [], _ => ([], [], [])
  | fc :: rest, i =>
      let (errs, ws, ops) := openWritersAux env rest (i + 1)
      match (env.file i).openResult with
      | none => (errs, (fc.log_level, i) :: ws, Op.file_open i :: ops)
      | some e => (FlushError.IoError e :: errs, ws, Op.file_open i :: ops)

/-- The `if !self.config.file_writers.is_empty()` initialization block of
`flush()`: skipped when no file destination is configured; otherwise, when
the writer list is still `None`, every configured file is opened once and
the writer list becomes `Some` of the successfully opened writers (failures
are recorded as errors). -/
def initFileWriters (cfg : LogsConfig) (env : FlushEnv) (st : FreeLogLayerState) :
    List FlushError × Option (List (Level × Nat)) × List Op :=
  if cfg.file_writers.isEmpty then ([], st.file_writers, [])
  else
    match st.file_writers with
    | some ws => ([], some ws, [])
    | none =>
        let (errs, ws, ops) := openWritersAux env cfg.file_writers 0
        (errs, some ws, ops)

/-- Classification of how `flush()` reacts to one remote destination's send
outcome: success, a failure pushed onto the error list (processing
continues), or an error propagated out of `flush()` via `?` (processing
aborts). -/
inductive RemoteStep where
  | ok
  | fail (e : FlushError)
  | abort (e : FlushError)

/-- Whether a `RemoteStep` is the `?`-propagation case. -/
def RemoteStep.isAbort : RemoteStep → Bool
  | .abort _ => true
  | _ => false

/-- `value.get("success")`. -/
def jsonGet (v : Json) (k : String) : Option Json :=
  match v with
  | .obj kvs => lookupField kvs k
  | _ => none

/-- `Value::as_bool`. -/
def Json.asBool : Json → Option Bool
  | .bool b => some b
  | _ => none

/-- The body-inspection step of `flush()` for a 200 response: a `json()`
parse failure is pushed as a `Reqwest` error; a parsed body whose `success`
field is absent or not a boolean is propagated out of `flush()` by the `?`
on `ok_or(...)`; a `false` success indicator is pushed; `true` succeeds. -/
def responseBodyStep (body : Except String Json) : RemoteStep :=
  match body with
  | .error e => .fail (.Reqwest e)
  | .ok value =>
      match (jsonGet value "success").bind Json.asBool with
      | none =>
          .abort (.Unsuccessful ("Received unsuccessful response: " ++ jsonDebug value))
      | some false =>
          .fail (.Unsuccessful ("Received unsuccessful response: " ++ jsonDebug value))
      | some true => .ok

/-- How `flush()` classifies one remote destination's outcome: a transport
failure is pushed as a `Reqwest` error; a response with status other than
`StatusCode::OK` (200) is pushed as `Unsuccessful` carrying the response
text (or the fallback message when `text()` failed); a 200 response is
inspected through `responseBodyStep`. -/
def handleResponse : SendOutcome → RemoteStep
  | .transportError e => .fail (.Reqwest e)
  | .response r =>
      if r.status ≠ 200 then
        .fail (.Unsuccessful (r.text.getD "(failed to get response text)"))
      else
        responseBodyStep r.body

/-- The remote fan-out loop of `flush()` over the API destinations starting
at index `i`: returns the collected errors (in destination order), the trace
of POSTs performed, and `some e` when a destination's processing propagated
`e` out of `flush()` (in which case later destinations are not reached). -/
def remoteLoopAux (env : FlushEnv) (buffer : List LogEntryRequest) :
    List ApiWriterConfig → Nat → List FlushError × List Op × Option FlushError
  | [], _ => ([], [], none)
  | ac :: rest, i =>
      let entries := destEntries buffer ac.log_level
      if entries.isEmpty then remoteLoopAux env buffer rest (i + 1)
      else
        let body := jsonToString (.arr (entries.map LogEntryRequest.serialize))
        match handleResponse (env.send i) with
        | .ok =>
            let (errs, ops, ab) := remoteLoopAux env buffer rest (i + 1)
            (errs, Op.remote_send i body :: ops, ab)
        | .fail e =>
            let (errs, ops, ab) := remoteLoopAux env buffer rest (i + 1)
            (e :: errs, Op.remote_send i body :: ops, ab)
        | .abort e => ([], [Op.remote_send i body], some e)

/-- The per-writer write loop of `flush()`: serialize each filtered entry as
one newline-terminated JSON line and `write_all` it through file writer
`idx`; a write failure is pushed and the loop continues with the next
entry.  `j` numbers the writes of this flush on this writer. -/
def writeEntriesAux (env : FlushEnv) (idx : Nat) :
    List LogEntryRequest → Nat → List FlushError × List Op
  | [], _ => ([], [])
  | e :: rest, j =>
      let line := jsonToString e.serialize ++ "\n"
      let (errs, ops) := writeEntriesAux env idx rest (j + 1)
      match (env.file idx).writeResults j with
      | none => (errs, Op.file_write idx line :: ops)
      | some msg => (FlushError.IoError msg :: errs, Op.file_write idx line :: ops)

/-- The file fan-out loop of `flush()` over the initialized writers: for each
writer, write the filtered entries and then flush the write buffer
(unconditionally); write and flush failures are pushed and processing
continues with the next writer. -/
def fileLoopAux (env : FlushEnv) (buffer : List LogEntryRequest) :
    List (Level × Nat) → List FlushError × List Op
  | [] => ([], [])
  | (lvl, idx) :: rest =>
      let entries := destEntries buffer lvl
      let (werrs, wops) := writeEntriesAux env idx entries 0
      let (ferrs, fops) :=
        match (env.file idx).flushResult with
        | none => (([] : List FlushError), [Op.file_flush idx])
        | some e => ([FlushError.IoError e], [Op.file_flush idx])
      let (errs, ops) := fileLoopAux env buffer rest
      (werrs ++ ferrs ++ errs, wops ++ fops ++ ops)

/-- The aggregation step at the end of `flush()`:
`match errs.len() { 0 => Ok(()), 1 => Err(first), _ => Err(Multi(errs)) }`. -/
def aggregate (errs : List FlushError) : Except FlushError Unit :=
  match errs with
  | [] => .ok ()
  | [e] => .error e
  | _ => .error (.Multi errs)

/-- The outcome of one `flush()` call: the returned result, the layer state
afterwards, the trace of I/O operations performed, and (as a ghost output
for specification purposes) the error list collected before aggregation. -/
structure FlushResult where
  result : Except FlushError Unit
  state : FreeLogLayerState
  trace : List Op
  collected : List FlushError

/-- `FreeLogLayer::flush` (rust-client/src/lib.rs): initialize file writers
on first need, drain the buffer, return success immediately when the drained
batch is empty, fan out to the remote destinations (collecting failures,
aborting everything if a destination's processing propagates via `?`), fan
out to the initialized file writers, and aggregate the collected errors. -/
def flush (cfg : LogsConfig) (env : FlushEnv) (st : FreeLogLayerState) : FlushResult :=
  let (errs0, writers, ops0) := initFileWriters cfg env st
  let buffer := st.buffer
  let st' : FreeLogLayerState := { st with buffer := [], file_writers := writers }
  if buffer.isEmpty then ⟨.ok (), st', ops0, []⟩
  else
    let (rerrs, rops, ab) := remoteLoopAux env buffer cfg.api_writers 0
    match ab with
    | some e => ⟨.error e, st', ops0 ++ rops, errs0 ++ rerrs⟩
    | none =>
        let (ferrs, fops) :=
          match writers with
          | none => (([] : List FlushError), ([] : List Op))
          | some ws => fileLoopAux env buffer ws
        let errs := errs0 ++ rerrs ++ ferrs
        ⟨aggregate errs, st', ops0 ++ rops ++ fops, errs⟩

/-- The event as handed to `on_event` after `extract_event_data` (the
`EventData` struct plus the tracing level): message/error text and optional
origin metadata. -/
structure Event where
  level : Level
  message : Option String
  error : Option String
  file : Option String
  line : Option Nat
  module_path : Option String
  target : Option String
deriving Repr

/-- The `LogEntryRequest` pushed by `on_event`: the event's level, the
wall-clock timestamp `now`, the message (falling back to the error text,
then to the empty string) as a single string component, the origin metadata
(`location` combines file and line when both are present), and a snapshot of
the current ambient property overlay. -/
def mkEntry (ev : Event) (now : Nat) (props : Option (List (String × LogComponent))) :
    LogEntryRequest :=
  { level := LogLevel.ofLevel ev.level
    values := [LogComponent.String ((ev.message.or ev.error).getD "")]
    ts := now
    target := ev.target
    module_path := ev.module_path
    location :=
      match ev.file, ev.line with
      | some f, some l => some (f ++ ":" ++ toString l)
      | _, _ => ev.file
    properties := props }

/-- `FreeLogLayer::on_event` (rust-client/src/lib.rs): events strictly below
the globally configured level are dropped before buffering; otherwise one
record is built via `mkEntry` and pushed onto the end of the buffer. -/
def on_event (cfg : LogsConfig) (ev : Event) (now : Nat) (st : FreeLogLayerState) :
    FreeLogLayerState :=
  if level_int ev.level < level_int cfg.log_level then st
  else { st with buffer := st.buffer ++ [mkEntry ev now st.properties] }

/-- `HashMap::insert` on the association-list model of the overlay map:
replaces the value at an existing key, otherwise appends the new binding. -/
def insertProp : List (String × LogComponent) → String → LogComponent →
    List (String × LogComponent)
  | [], k, v => [(k, v)]
  | kv :: rest, k, v =>
      if kv.1 = k then (k, v) :: rest else kv :: insertProp rest k v

/-- `HashMap::remove` on the association-list model of the overlay map. -/
def removeProp : List (String × LogComponent) → String → List (String × LogComponent)
  | [], _ => []
  | kv :: rest, k => if kv.1 = k then rest else kv :: removeProp rest k

/-- `FreeLogLayer::with_properties`: replaces the whole overlay. -/
def with_properties (st : FreeLogLayerState) (m : List (String × LogComponent)) :
    FreeLogLayerState :=
  { st with properties := some m }

/-- `FreeLogLayer::set_property`: `get_or_insert(HashMap::new())` then
`insert`, so the overlay becomes present even if it was absent. -/
def set_property (st : FreeLogLayerState) (k : String) (v : LogComponent) :
    FreeLogLayerState :=
  { st with properties := some (insertProp (st.properties.getD []) k v) }

/-- `FreeLogLayer::remove_property`: `get_or_insert(HashMap::new())` then
`remove`, so the overlay becomes present even if it was absent. -/
def remove_property (st : FreeLogLayerState) (k : String) : FreeLogLayerState :=
  { st with properties := some (removeProp (st.properties.getD []) k) }

/-- One ambient-property-overlay mutation, for reasoning about histories. -/
inductive PropOp where
  | setp (k : String) (v : LogComponent)
  | removep (k : String)
  | replaceAll (m : List (String × LogComponent))

/-- Application of one overlay mutation to the layer state. -/
def applyPropOp (st : FreeLogLayerState) : PropOp → FreeLogLayerState
  | .setp k v => set_property st k v
  | .removep k => remove_property st k
  | .replaceAll m => with_properties st m

/-- Application of a history of overlay mutations, oldest first. -/
def applyPropOps (ops : List PropOp) (st : FreeLogLayerState) : FreeLogLayerState :=
  ops.foldl applyPropOp st

/-- Whether the operation trace contains a POST to remote destination `i`. -/
def attemptsRemote (ops : List Op) (i : Nat) : Bool :=
  ops.any fun op =>
    match op with
    | .remote_send j _ => j = i
    | _ => false

/-- Whether an operation touches file destination `idx` (open, write or
buffer-flush). -/
def opTouchesFile (op : Op) (idx : Nat) : Bool :=
  match op with
  | .file_open j => j = idx
  | .file_write j _ => j = idx
  | .file_flush j => j = idx
  | .remote_send _ _ => false

/-- The componentwise normalization performed by a serialize/deserialize
round trip: `Undefined` collapses to `Null` (both serialize to JSON null),
a non-finite `Real` (NaN, ±∞) collapses to `Null` too (serde_json writes
null for it), and a non-negative `Integer` comes back as `UInteger` (the
`is_u64` check precedes the `is_i64` check); every other component survives
unchanged. -/
def normComponent : LogComponent → LogComponent
  | .Integer n => if 0 ≤ n then .UInteger n.toNat else .Integer n
  | .Undefined => .Null
  | .Real (.finite q) => .Real (.finite q)
  | .Real _ => .Null
  | c => c

theorem deserialize_serialize_component (c : LogComponent) :
    LogComponent.deserialize c.serialize = normComponent c := by
  cases c with
  | Real x =>
      cases x <;> simp [LogComponent.serialize, LogComponent.deserialize, normComponent]
  | Integer n => simp [LogComponent.serialize, LogComponent.deserialize, normComponent]
  | UInteger n => simp [LogComponent.serialize, LogComponent.deserialize, normComponent]
  | String s => simp [LogComponent.serialize, LogComponent.deserialize, normComponent]
  | Boolean b => simp [LogComponent.serialize, LogComponent.deserialize, normComponent]
  | Undefined => simp [LogComponent.serialize, LogComponent.deserialize, normComponent]
  | Null => simp [LogComponent.serialize, LogComponent.deserialize, normComponent]

theorem fromStr_asStr (l : LogLevel) : LogLevel.fromStr l.asStr = some l := by
  cases l <;> rfl

theorem applyPropOp_props_isSome (st : FreeLogLayerState) (o : PropOp) :
    ((applyPropOp st o).properties).isSome = true := by
  cases o <;> simp [applyPropOp, set_property, remove_property, with_properties]

theorem applyPropOps_preserve_isSome (ops : List PropOp) (st : FreeLogLayerState)
    (h : st.properties.isSome = true) :
    ((applyPropOps ops st).properties).isSome = true := by
  induction ops generalizing st with
  | nil => exact h
  | cons o rest ih =>
      exact ih (applyPropOp st o) (applyPropOp_props_isSome st o)

theorem openWritersAux_ops_open (env : FlushEnv) (fcs : List FileWriterConfig)
    (k : Nat) : ∀ op ∈ (openWritersAux env fcs k).2.2, ∃ i, op = Op.file_open i := by
  induction fcs generalizing k with
  | nil => intro op h; simp [openWritersAux] at h
  | cons fc rest ih =>
      intro op h
      simp only [openWritersAux] at h
      rcases hrec : openWritersAux env rest (k + 1) with ⟨errs, ws, ops⟩
      rw [hrec] at h
      cases hres : (env.file k).openResult <;> rw [hres] at h <;>
        simp only [List.mem_cons] at h <;>
        rcases h with h | h
      · exact ⟨k, h⟩
      · exact ih (k + 1) op (by rw [hrec]; exact h)
      · exact ⟨k, h⟩
      · exact ih (k + 1) op (by rw [hrec]; exact h)

theorem initFileWriters_ops_open (cfg : LogsConfig) (env : FlushEnv)
    (st : FreeLogLayerState) :
    ∀ op ∈ (initFileWriters cfg env st).2.2, ∃ i, op = Op.file_open i := by
  intro op h
  simp only [initFileWriters] at h
  split at h
  · simp at h
  · split at h
    · simp at h
    · rcases hrec : openWritersAux env cfg.file_writers 0 with ⟨errs, ws, ops⟩
      rw [hrec] at h
      exact openWritersAux_ops_open env cfg.file_writers 0 op (by rw [hrec]; exact h)

/-- C5: flushing with an empty Event Buffer returns success immediately —
the drained batch is empty, no remote send, file write or file buffer-flush
is performed (the trace holds at most lazy open attempts, which precede the
drain), and any errors collected before the drain are discarded rather than
turned into a failure result. -/
theorem flush_empty_buffer_noop (cfg : LogsConfig) (env : FlushEnv)
    (st : FreeLogLayerState) (h : st.buffer = []) :
    (flush cfg env st).result = .ok () ∧
    (∀ op ∈ (flush cfg env st).trace, ∃ i, op = Op.file_open i) ∧
    (flush cfg env st).state.buffer = [] := by
  simp only [flush, h, List.isEmpty_nil, if_true]
  refine ⟨trivial, fun op hop => ?_, trivial⟩
  exact initFileWriters_ops_open cfg env st op hop

/-- Witness for `flush_empty_buffer_noop`: a configured file destination
whose open fails, flushed with an empty buffer, still yields success and a
trace of only the open attempt. -/
theorem flush_empty_buffer_noop_witness :
    (flush ⟨"ua", [], [⟨"/tmp/a", Level.Trace⟩], .Trace, true, true⟩
        ⟨fun _ => SendOutcome.transportError "down",
         fun _ => ⟨some "denied", fun _ => none, none⟩⟩
        FreeLogLayer.new).result = .ok () ∧
    (∀ op ∈ (flush ⟨"ua", [], [⟨"/tmp/a", Level.Trace⟩], .Trace, true, true⟩
        ⟨fun _ => SendOutcome.transportError "down",
         fun _ => ⟨some "denied", fun _ => none, none⟩⟩
        FreeLogLayer.new).trace, ∃ i, op = Op.file_open i) ∧
    (flush ⟨"ua", [], [⟨"/tmp/a", Level.Trace⟩], .Trace, true, true⟩
        ⟨fun _ => SendOutcome.transportError "down",
         fun _ => ⟨some "denied", fun _ => none, none⟩⟩
        FreeLogLayer.new).state.buffer = [] :=
  flush_empty_buffer_noop _ _ _ rfl

/-- C6: the subset of a drained batch handed to a destination with minimum
severity `m` is computed by `destEntries`: it is an in-order sublist of the
batch containing exactly the records whose severity is at least `m` under
`level_int`, and `level_int` realizes the total order
Trace < Debug < Info < Warn < Error. -/
theorem destEntries_filter_spec (batch : List LogEntryRequest) (m : Level) :
    List.Sublist (destEntries batch m) batch ∧
    (∀ r, r ∈ destEntries batch m ↔
      r ∈ batch ∧ level_int m ≤ level_int (Level.ofLogLevel r.level)) ∧
    (level_int Level.Trace < level_int Level.Debug ∧
     level_int Level.Debug < level_int Level.Info ∧
     level_int Level.Info < level_int Level.Warn ∧
     level_int Level.Warn < level_int Level.Error) := by
  refine ⟨List.filter_sublist _, fun r => ?_, by decide⟩
  simp [destEntries, List.mem_filter]

/-- C2: the aggregation step of `flush()` maps zero collected failures to
success, exactly one failure to that failure itself (identity preserved),
and two or more failures to a single `Multi` composite carrying exactly the
collected list in order. -/
theorem aggregate_arity (e : FlushError) (es : List FlushError)
    (h : 2 ≤ es.length) :
    aggregate [] = .ok () ∧ aggregate [e] = .error e ∧
    aggregate es = .error (.Multi es) := by
  refine ⟨rfl, rfl, ?_⟩
  match es, h with
  | a :: b :: rest, _ => rfl

/-- Witness for `aggregate_arity` at concrete error lists. -/
theorem aggregate_arity_witness :
    aggregate [] = .ok () ∧
    aggregate [FlushError.Unsuccessful "a"] = .error (.Unsuccessful "a") ∧
    aggregate [FlushError.Unsuccessful "a", FlushError.IoError "b"] =
      .error (.Multi [.Unsuccessful "a", .IoError "b"]) :=
  aggregate_arity (.Unsuccessful "a") [.Unsuccessful "a", .IoError "b"]
    (by decide)

/-- C9: an event whose severity is strictly below the globally configured
log level leaves the layer state — in particular the Event Buffer —
completely unchanged, so no destination can ever receive it. -/
theorem on_event_below_global_level (cfg : LogsConfig) (ev : Event) (now : Nat)
    (st : FreeLogLayerState) (h : level_int ev.level < level_int cfg.log_level) :
    on_event cfg ev now st = st ∧ (on_event cfg ev now st).buffer = st.buffer := by
  simp [on_event, h]

/-- Witness for `on_event_below_global_level`: a Trace event against a
dispatcher configured at Info is dropped even though a Trace-level
destination is configured. -/
theorem on_event_below_global_level_witness :
    on_event ⟨"ua", [⟨"ua", "http://x", Level.Trace⟩], [], .Info, true, true⟩
        ⟨.Trace, some "m", none, none, none, none, none⟩ 3 FreeLogLayer.new =
      FreeLogLayer.new ∧
    (on_event ⟨"ua", [⟨"ua", "http://x", Level.Trace⟩], [], .Info, true, true⟩
        ⟨.Trace, some "m", none, none, none, none, none⟩ 3 FreeLogLayer.new).buffer =
      FreeLogLayer.new.buffer :=
  on_event_below_global_level _ _ _ _ (by decide)

/-- C10: `set_property` and `remove_property` always leave the ambient
property overlay present (possibly empty) — `remove_property` on a fresh
dispatcher yields the present-but-empty map — a fresh dispatcher's overlay
is absent, any non-empty history of overlay mutations makes it present, and
a buffered record snapshots exactly the current overlay as its `properties`
(absent only when the overlay is absent). -/
theorem overlay_present_after_mutation (st : FreeLogLayerState) (k : String)
    (v : LogComponent) (ops : List PropOp) (cfg : LogsConfig) (ev : Event)
    (now : Nat) (hops : ops ≠ [])
    (hlvl : level_int cfg.log_level ≤ level_int ev.level) :
    ((set_property st k v).properties).isSome = true ∧
    ((remove_property st k).properties).isSome = true ∧
    (remove_property FreeLogLayer.new k).properties = some [] ∧
    FreeLogLayer.new.properties = none ∧
    ((applyPropOps ops FreeLogLayer.new).properties).isSome = true ∧
    (on_event cfg ev now st).buffer = st.buffer ++ [mkEntry ev now st.properties] ∧
    (mkEntry ev now st.properties).properties = st.properties := by
  refine ⟨by simp [set_property], by simp [remove_property],
    by simp [remove_property, FreeLogLayer.new, removeProp], rfl, ?_, ?_, rfl⟩
  · match ops, hops with
    | o :: rest, _ =>
        exact applyPropOps_preserve_isSome rest _
          (applyPropOp_props_isSome FreeLogLayer.new o)
  · have : ¬ level_int ev.level < level_int cfg.log_level := by omega
    simp [on_event, this]

/-- Witness for `overlay_present_after_mutation` at a concrete dispatcher,
overlay history and event. -/
theorem overlay_present_after_mutation_witness :
    ((set_property FreeLogLayer.new "env" (.String "prod")).properties).isSome = true ∧
    ((remove_property FreeLogLayer.new "env").properties).isSome = true ∧
    (remove_property FreeLogLayer.new "env").properties = some [] ∧
    FreeLogLayer.new.properties = none ∧
    ((applyPropOps [.removep "env"] FreeLogLayer.new).properties).isSome = true ∧
    (on_event ⟨"ua", [], [], .Trace, true, true⟩
        ⟨.Info, some "m", none, none, none, none, none⟩ 3 FreeLogLayer.new).buffer =
      FreeLogLayer.new.buffer ++
        [mkEntry ⟨.Info, some "m", none, none, none, none, none⟩ 3
          FreeLogLayer.new.properties] ∧
    (mkEntry ⟨.Info, some "m", none, none, none, none, none⟩ 3
        FreeLogLayer.new.properties).properties = FreeLogLayer.new.properties :=
  overlay_present_after_mutation FreeLogLayer.new "env" (.String "prod")
    [.removep "env"] ⟨"ua", [], [], .Trace, true, true⟩
    ⟨.Info, some "m", none, none, none, none, none⟩ 3 (by simp) (by decide)

/-- C3 (amended): a serialize/deserialize round trip of a log record
preserves the severity and the timestamp exactly, and preserves the values
and property values up to `normComponent`: `Undefined` comes back as
`Null`, a non-finite `Real` (NaN, ±∞) also comes back as `Null`, and a
non-negative `Integer` comes back as the equal-valued `UInteger`; every
other component (negative integers, unsigned integers, finite reals,
strings, booleans, `Null`) is preserved exactly. -/
theorem serde_round_trip_normalizes (e : LogEntryRequest) :
    LogEntryRequest.deserialize e.serialize =
      some { level := e.level
             values := e.values.map normComponent
             ts := e.ts
             target := none
             module_path := none
             location := none
             properties := e.properties.map
               (List.map fun kv => (kv.1, normComponent kv.2)) } := by
  rcases e with ⟨lvl, vals, ts, tgt, mp, loc, props⟩
  cases props with
  | none =>
      simp [LogEntryRequest.serialize, LogEntryRequest.deserialize, lookupField,
        List.find?, fromStr_asStr, List.map_map, Function.comp,
        deserialize_serialize_component]
  | some ps =>
      simp [LogEntryRequest.serialize, LogEntryRequest.deserialize, lookupField,
        List.find?, fromStr_asStr, List.map_map, Function.comp,
        deserialize_serialize_component]

/-- C3 counterexample: the record with the single value `Undefined` does not
survive a serialize/deserialize round trip — it comes back with the value
`Null` instead, because both variants serialize to JSON null and null
deserializes to `Null` — and neither does the record with the single value
`Real NaN`, which serde_json serializes as null as well. -/
theorem serde_round_trip_undefined_cex :
    LogEntryRequest.deserialize
        (LogEntryRequest.serialize ⟨.Info, [.Undefined], 7, none, none, none, none⟩) =
      some ⟨.Info, [.Null], 7, none, none, none, none⟩ ∧
    LogEntryRequest.deserialize
        (LogEntryRequest.serialize ⟨.Info, [.Undefined], 7, none, none, none, none⟩) ≠
      some ⟨.Info, [.Undefined], 7, none, none, none, none⟩ ∧
    LogEntryRequest.deserialize
        (LogEntryRequest.serialize ⟨.Info, [.Real .nan], 7, none, none, none, none⟩) =
      some ⟨.Info, [.Null], 7, none, none, none, none⟩ ∧
    LogEntryRequest.deserialize
        (LogEntryRequest.serialize ⟨.Info, [.Real .nan], 7, none, none, none, none⟩) ≠
      some ⟨.Info, [.Real .nan], 7, none, none, none, none⟩ := by
  exact ⟨rfl, by decide, rfl, by decide⟩

theorem flush_eq (cfg : LogsConfig) (env : FlushEnv) (st : FreeLogLayerState) :
    flush cfg env st =
      (let t := initFileWriters cfg env st
       let st' : FreeLogLayerState := ⟨[], t.2.1, st.properties⟩
       if st.buffer.isEmpty then ⟨.ok (), st', t.2.2, []⟩
       else
         let r := remoteLoopAux env st.buffer cfg.api_writers 0
         match r.2.2 with
         | some e => ⟨.error e, st', t.2.2 ++ r.2.1, t.1 ++ r.1⟩
         | none =>
             let f :=
               match t.2.1 with
               | none => (([] : List FlushError), ([] : List Op))
               | some ws => fileLoopAux env st.buffer ws
             ⟨aggregate (t.1 ++ r.1 ++ f.1), st', t.2.2 ++ r.2.1 ++ f.2,
              t.1 ++ r.1 ++ f.1⟩) := rfl

theorem attemptsRemote_iff (ops : List Op) (i : Nat) :
    attemptsRemote ops i = true ↔ ∃ b, Op.remote_send i b ∈ ops := by
  simp only [attemptsRemote, List.any_eq_true]
  constructor
  · rintro ⟨op, hmem, hop⟩
    cases op with
    | remote_send j b =>
        simp only [decide_eq_true_eq] at hop
        subst hop
        exact ⟨b, hmem⟩
    | file_open j => simp at hop
    | file_write j l => simp at hop
    | file_flush j => simp at hop
  · rintro ⟨b, hmem⟩
    exact ⟨.remote_send i b, hmem, by simp⟩

theorem remoteLoopAux_no_abort (env : FlushEnv) (buf : List LogEntryRequest)
    (H : ∀ i, (handleResponse (env.send i)).isAbort = false) :
    ∀ (acs : List ApiWriterConfig) (k : Nat),
      (remoteLoopAux env buf acs k).2.2 = none := by
  intro acs
  induction acs with
  | nil => intro k; rfl
  | cons ac rest ih =>
      intro k
      rcases hr : remoteLoopAux env buf rest (k + 1) with ⟨errs, ops, ab⟩
      have hab : ab = none := by have := ih (k + 1); rw [hr] at this; exact this
      subst hab
      simp only [remoteLoopAux]
      split
      · rw [hr]
      · cases hh : handleResponse (env.send k) with
        | ok => simp [hr]
        | fail e => simp [hr]
        | abort e =>
            exfalso
            have := H k
            rw [hh] at this
            simp [RemoteStep.isAbort] at this

theorem remoteLoopAux_attempts (env : FlushEnv) (buf : List LogEntryRequest)
    (H : ∀ i, (handleResponse (env.send i)).isAbort = false) :
    ∀ (acs : List ApiWriterConfig) (k j : Nat) (hj : j < acs.length),
      (destEntries buf (acs.get ⟨j, hj⟩).log_level).isEmpty = false →
      attemptsRemote (remoteLoopAux env buf acs k).2.1 (k + j) = true := by
  intro acs
  induction acs with
  | nil => intro k j hj; exact absurd hj (by simp)
  | cons ac rest ih =>
      intro k j hj hne
      simp only [remoteLoopAux]
      cases j with
      | zero =>
          simp only [List.get] at hne
          rw [Nat.add_zero]
          split
          · simp_all
          · cases hh : handleResponse (env.send k) with
            | ok =>
                rcases hr : remoteLoopAux env buf rest (k + 1) with ⟨errs, ops, ab⟩
                simp [attemptsRemote]
            | fail e =>
                rcases hr : remoteLoopAux env buf rest (k + 1) with ⟨errs, ops, ab⟩
                simp [attemptsRemote]
            | abort e => simp [attemptsRemote]
      | succ j' =>
          have hj' : j' < rest.length := Nat.lt_of_succ_lt_succ hj
          have hne' : (destEntries buf (rest.get ⟨j', hj'⟩).log_level).isEmpty = false := by
            simpa [List.get] using hne
          have hrec := ih (k + 1) j' hj' hne'
          have harith : k + (j' + 1) = (k + 1) + j' := by omega
          rw [harith]
          split
          · exact hrec
          · cases hh : handleResponse (env.send k) with
            | ok =>
                rcases hr : remoteLoopAux env buf rest (k + 1) with ⟨errs, ops, ab⟩
                rw [hr] at hrec
                simp only at hrec
                simp [attemptsRemote] at hrec ⊢
                exact Or.inr hrec
            | fail e =>
                rcases hr : remoteLoopAux env buf rest (k + 1) with ⟨errs, ops, ab⟩
                rw [hr] at hrec
                simp only at hrec
                simp [attemptsRemote] at hrec ⊢
                exact Or.inr hrec
            | abort e =>
                exfalso
                have := H k
                rw [hh] at this
                simp [RemoteStep.isAbort] at this

theorem remoteLoopAux_send_sound (env : FlushEnv) (buf : List LogEntryRequest) :
    ∀ (acs : List ApiWriterConfig) (k i : Nat) (b : String),
      Op.remote_send i b ∈ (remoteLoopAux env buf acs k).2.1 →
      ∃ j, ∃ hj : j < acs.length, i = k + j ∧
        (destEntries buf (acs.get ⟨j, hj⟩).log_level).isEmpty = false := by
  intro acs
  induction acs with
  | nil => intro k i b h; simp [remoteLoopAux] at h
  | cons ac rest ih =>
      intro k i b h
      simp only [remoteLoopAux] at h
      split at h
      · rcases ih (k + 1) i b h with ⟨j, hj, hij, hne⟩
        exact ⟨j + 1, Nat.succ_lt_succ hj, by omega, by simpa [List.get] using hne⟩
      · rename_i hne
        cases hh : handleResponse (env.send k) with
        | ok =>
            rw [hh] at h
            rcases hr : remoteLoopAux env buf rest (k + 1) with ⟨errs, ops, ab⟩
            rw [hr] at h
            simp only [List.mem_cons] at h
            rcases h with h | h
            · rcases h with ⟨hik, hb⟩
              exact ⟨0, by simp, by omega,
                by simpa [List.get] using Bool.of_not_eq_true hne⟩
            · rcases ih (k + 1) i b (by rw [hr]; exact h) with ⟨j, hj, hij, hne'⟩
              exact ⟨j + 1, Nat.succ_lt_succ hj, by omega, by simpa [List.get] using hne'⟩
        | fail e =>
            rw [hh] at h
            rcases hr : remoteLoopAux env buf rest (k + 1) with ⟨errs, ops, ab⟩
            rw [hr] at h
            simp only [List.mem_cons] at h
            rcases h with h | h
            · rcases h with ⟨hik, hb⟩
              exact ⟨0, by simp, by omega,
                by simpa [List.get] using Bool.of_not_eq_true hne⟩
            · rcases ih (k + 1) i b (by rw [hr]; exact h) with ⟨j, hj, hij, hne'⟩
              exact ⟨j + 1, Nat.succ_lt_succ hj, by omega, by simpa [List.get] using hne'⟩
        | abort e =>
            rw [hh] at h
            simp only [List.mem_singleton] at h
            rcases h with ⟨hik, hb⟩
            exact ⟨0, by simp, by omega,
              by simpa [List.get] using Bool.of_not_eq_true hne⟩

theorem remoteLoopAux_ops_send (env : FlushEnv) (buf : List LogEntryRequest) :
    ∀ (acs : List ApiWriterConfig) (k : Nat),
      ∀ op ∈ (remoteLoopAux env buf acs k).2.1, ∃ i b, op = Op.remote_send i b := by
  intro acs
  induction acs with
  | nil => intro k op h; simp [remoteLoopAux] at h
  | cons ac rest ih =>
      intro k op h
      simp only [remoteLoopAux] at h
      split at h
      · exact ih (k + 1) op h
      · cases hh : handleResponse (env.send k) with
        | ok =>
            rw [hh] at h
            rcases hr : remoteLoopAux env buf rest (k + 1) with ⟨errs, ops, ab⟩
            rw [hr] at h
            simp only [List.mem_cons] at h
            rcases h with h | h
            · exact ⟨k, _, h⟩
            · exact ih (k + 1) op (by rw [hr]; exact h)
        | fail e =>
            rw [hh] at h
            rcases hr : remoteLoopAux env buf rest (k + 1) with ⟨errs, ops, ab⟩
            rw [hr] at h
            simp only [List.mem_cons] at h
            rcases h with h | h
            · exact ⟨k, _, h⟩
            · exact ih (k + 1) op (by rw [hr]; exact h)
        | abort e =>
            rw [hh] at h
            simp only [List.mem_singleton] at h
            exact ⟨k, _, h⟩

theorem writeEntriesAux_ops (env : FlushEnv) (idx : Nat) :
    ∀ (es : List LogEntryRequest) (j : Nat),
      ∀ op ∈ (writeEntriesAux env idx es j).2, ∃ l, op = Op.file_write idx l := by
  intro es
  induction es with
  | nil => intro j op h; simp [writeEntriesAux] at h
  | cons e rest ih =>
      intro j op h
      simp only [writeEntriesAux] at h
      rcases hr : writeEntriesAux env idx rest (j + 1) with ⟨errs, ops⟩
      rw [hr] at h
      cases hw : (env.file idx).writeResults j <;> rw [hw] at h <;>
        simp only [List.mem_cons] at h <;> rcases h with h | h
      · exact ⟨_, h⟩
      · exact ih (j + 1) op (by rw [hr]; exact h)
      · exact ⟨_, h⟩
      · exact ih (j + 1) op (by rw [hr]; exact h)

theorem writeEntriesAux_nonempty (env : FlushEnv) (idx : Nat)
    (e : LogEntryRequest) (es : List LogEntryRequest) (j : Nat) :
    ∃ l, Op.file_write idx l ∈ (writeEntriesAux env idx (e :: es) j).2 := by
  simp only [writeEntriesAux]
  rcases hr : writeEntriesAux env idx es (j + 1) with ⟨errs, ops⟩
  cases hw : (env.file idx).writeResults j <;> exact ⟨_, List.mem_cons_self _ _⟩

theorem fileLoopAux_cons (env : FlushEnv) (buf : List LogEntryRequest)
    (wl : Level) (wi : Nat) (rest : List (Level × Nat)) :
    (fileLoopAux env buf ((wl, wi) :: rest)).2 =
      (writeEntriesAux env wi (destEntries buf wl) 0).2 ++ [Op.file_flush wi] ++
        (fileLoopAux env buf rest).2 := by
  simp only [fileLoopAux]
  cases hf : (env.file wi).flushResult <;> rfl

theorem fileLoopAux_flushes (env : FlushEnv) (buf : List LogEntryRequest) :
    ∀ (ws : List (Level × Nat)) (lvl : Level) (idx : Nat),
      (lvl, idx) ∈ ws → Op.file_flush idx ∈ (fileLoopAux env buf ws).2 := by
  intro ws
  induction ws with
  | nil => intro lvl idx h; simp at h
  | cons w rest ih =>
      intro lvl idx h
      rcases w with ⟨wl, wi⟩
      rw [fileLoopAux_cons]
      simp only [List.mem_cons, Prod.mk.injEq] at h
      rcases h with ⟨h1, h2⟩ | h
      · subst h2
        simp [List.mem_append]
      · simp [List.mem_append, ih lvl idx h]

theorem fileLoopAux_writes (env : FlushEnv) (buf : List LogEntryRequest) :
    ∀ (ws : List (Level × Nat)) (lvl : Level) (idx : Nat),
      (lvl, idx) ∈ ws → destEntries buf lvl ≠ [] →
      ∃ l, Op.file_write idx l ∈ (fileLoopAux env buf ws).2 := by
  intro ws
  induction ws with
  | nil => intro lvl idx h; simp at h
  | cons w rest ih =>
      intro lvl idx h hne
      rcases w with ⟨wl, wi⟩
      simp only [List.mem_cons, Prod.mk.injEq] at h
      rcases h with ⟨rfl, rfl⟩ | h
      · rcases hd : destEntries buf lvl with _ | ⟨e, es⟩
        · exact absurd hd hne
        · rcases writeEntriesAux_nonempty env idx e es 0 with ⟨l, hl⟩
          rw [← hd] at hl
          exact ⟨l, by rw [fileLoopAux_cons]; simp [List.mem_append, hl]⟩
      · rcases ih lvl idx h hne with ⟨l, hl⟩
        exact ⟨l, by rw [fileLoopAux_cons]; simp [List.mem_append, hl]⟩

theorem fileLoopAux_not_touching (env : FlushEnv) (buf : List LogEntryRequest)
    (idx : Nat) :
    ∀ ws : List (Level × Nat), idx ∉ ws.map Prod.snd →
      ∀ op ∈ (fileLoopAux env buf ws).2, opTouchesFile op idx = false := by
  intro ws
  induction ws with
  | nil => intro h op hop; simp [fileLoopAux] at hop
  | cons w rest ih =>
      intro h op hop
      rcases w with ⟨wl, wi⟩
      simp only [List.map_cons, List.mem_cons] at h
      push_neg at h
      rcases h with ⟨hwi, hrest⟩
      rw [fileLoopAux_cons] at hop
      simp only [List.mem_append, List.mem_singleton] at hop
      rcases hop with (hw | hf) | hr
      · rcases writeEntriesAux_ops env wi _ 0 op hw with ⟨l, rfl⟩
        simp only [opTouchesFile, decide_eq_false_iff_not]
        exact fun hc => hwi hc.symm
      · subst hf
        simp only [opTouchesFile, decide_eq_false_iff_not]
        exact fun hc => hwi hc.symm
      · exact ih hrest op hr

theorem fileLoopAux_no_writes_when_empty (env : FlushEnv)
    (buf : List LogEntryRequest) (idx : Nat) :
    ∀ ws : List (Level × Nat),
      (∀ lvl, (lvl, idx) ∈ ws → destEntries buf lvl = []) →
      ∀ l, Op.file_write idx l ∉ (fileLoopAux env buf ws).2 := by
  intro ws
  induction ws with
  | nil => intro h l hl; simp [fileLoopAux] at hl
  | cons w rest ih =>
      intro h l hl
      rcases w with ⟨wl, wi⟩
      rw [fileLoopAux_cons] at hl
      simp only [List.mem_append, List.mem_singleton] at hl
      rcases hl with (hw | hf) | hr
      · by_cases hwi : wi = idx
        · subst hwi
          have hempty : destEntries buf wl = [] := h wl (List.mem_cons_self _ _)
          rw [hempty] at hw
          simp [writeEntriesAux] at hw
        · rcases writeEntriesAux_ops env wi _ 0 _ hw with ⟨l2, heq⟩
          simp only [Op.file_write.injEq] at heq
          exact hwi heq.1.symm
      · simp at hf
      · exact ih (fun lvl hm => h lvl (List.mem_cons_of_mem _ hm)) l hr


theorem openWritersAux_mem_success (env : FlushEnv) :
    ∀ (fcs : List FileWriterConfig) (k : Nat) (lvl : Level) (i : Nat),
      (lvl, i) ∈ (openWritersAux env fcs k).2.1 → (env.file i).openResult = none := by
  intro fcs
  induction fcs with
  | nil => intro k lvl i h; simp [openWritersAux] at h
  | cons fc rest ih =>
      intro k lvl i h
      simp only [openWritersAux] at h
      rcases hr : openWritersAux env rest (k + 1) with ⟨errs, ws, ops⟩
      rw [hr] at h
      cases ho : (env.file k).openResult <;> rw [ho] at h
      · simp only [List.mem_cons, Prod.mk.injEq] at h
        rcases h with ⟨h1, h2⟩ | h
        · subst h2; exact ho
        · exact ih (k + 1) lvl i (by rw [hr]; exact h)
      · exact ih (k + 1) lvl i (by rw [hr]; exact h)

/-- The file stage of `flush()`: nothing when the writer list was never
initialized, otherwise the file fan-out loop over the initialized writers. -/
def fileStage (cfg : LogsConfig) (env : FlushEnv) (st : FreeLogLayerState) :
    List FlushError × List Op :=
  match (initFileWriters cfg env st).2.1 with
  | none => ([], [])
  | some ws => fileLoopAux env st.buffer ws

theorem flush_empty_case (cfg : LogsConfig) (env : FlushEnv) (st : FreeLogLayerState)
    (hb : st.buffer = []) :
    flush cfg env st =
      ⟨.ok (), ⟨[], (initFileWriters cfg env st).2.1, st.properties⟩,
       (initFileWriters cfg env st).2.2, []⟩ := by
  rw [flush_eq]
  simp [hb]

theorem flush_abort_case (cfg : LogsConfig) (env : FlushEnv) (st : FreeLogLayerState)
    (e : FlushError) (hb : st.buffer.isEmpty = false)
    (hab : (remoteLoopAux env st.buffer cfg.api_writers 0).2.2 = some e) :
    flush cfg env st =
      ⟨.error e, ⟨[], (initFileWriters cfg env st).2.1, st.properties⟩,
       (initFileWriters cfg env st).2.2 ++ (remoteLoopAux env st.buffer cfg.api_writers 0).2.1,
       (initFileWriters cfg env st).1 ++ (remoteLoopAux env st.buffer cfg.api_writers 0).1⟩ := by
  rw [flush_eq]
  simp [hb, hab]

theorem flush_noabort_case (cfg : LogsConfig) (env : FlushEnv) (st : FreeLogLayerState)
    (hb : st.buffer.isEmpty = false)
    (hab : (remoteLoopAux env st.buffer cfg.api_writers 0).2.2 = none) :
    flush cfg env st =
      ⟨aggregate ((initFileWriters cfg env st).1 ++
          (remoteLoopAux env st.buffer cfg.api_writers 0).1 ++ (fileStage cfg env st).1),
       ⟨[], (initFileWriters cfg env st).2.1, st.properties⟩,
       (initFileWriters cfg env st).2.2 ++
         (remoteLoopAux env st.buffer cfg.api_writers 0).2.1 ++ (fileStage cfg env st).2,
       (initFileWriters cfg env st).1 ++
         (remoteLoopAux env st.buffer cfg.api_writers 0).1 ++ (fileStage cfg env st).1⟩ := by
  rw [flush_eq]
  simp [hb, hab, fileStage]

theorem attemptsRemote_eq_false (ops : List Op) (i : Nat)
    (h : ∀ b, Op.remote_send i b ∉ ops) : attemptsRemote ops i = false := by
  cases hc : attemptsRemote ops i with
  | false => rfl
  | true =>
      rcases (attemptsRemote_iff ops i).1 hc with ⟨b, hb⟩
      exact absurd hb (h b)

theorem fileLoopAux_ops_file (env : FlushEnv) (buf : List LogEntryRequest) :
    ∀ (ws : List (Level × Nat)) (op : Op), op ∈ (fileLoopAux env buf ws).2 →
      (∃ i l, op = Op.file_write i l) ∨ (∃ i, op = Op.file_flush i) := by
  intro ws
  induction ws with
  | nil => intro op h; simp [fileLoopAux] at h
  | cons w rest ih =>
      intro op h
      rcases w with ⟨wl, wi⟩
      rw [fileLoopAux_cons] at h
      simp only [List.mem_append, List.mem_singleton] at h
      rcases h with (hw | hf) | hr
      · rcases writeEntriesAux_ops env wi _ 0 op hw with ⟨l, rfl⟩
        exact Or.inl ⟨wi, l, rfl⟩
      · exact Or.inr ⟨wi, hf⟩
      · exact ih op hr

theorem initFileWriters_some (cfg : LogsConfig) (env : FlushEnv)
    (st : FreeLogLayerState) (ws : List (Level × Nat))
    (h : st.file_writers = some ws) :
    initFileWriters cfg env st = ([], some ws, []) := by
  unfold initFileWriters
  rw [h]
  split <;> rfl

theorem initFileWriters_none_excludes (cfg : LogsConfig) (env : FlushEnv)
    (st : FreeLogLayerState) (idx : Nat) (e : String)
    (h : st.file_writers = none) (hidx : idx < cfg.file_writers.length)
    (hopen : (env.file idx).openResult = some e) :
    ∃ ws, (initFileWriters cfg env st).2.1 = some ws ∧ idx ∉ ws.map Prod.snd := by
  have hne : cfg.file_writers.isEmpty = false := by
    cases hfw : cfg.file_writers with
    | nil => rw [hfw] at hidx; simp at hidx
    | cons a l => simp
  refine ⟨(openWritersAux env cfg.file_writers 0).2.1, ?_, ?_⟩
  · unfold initFileWriters
    rw [h, hne]
    simp
  · intro hmem
    rcases List.mem_map.1 hmem with ⟨⟨lvl, i⟩, hin, hsnd⟩
    simp only at hsnd
    subst hsnd
    have hsuccess := openWritersAux_mem_success env cfg.file_writers 0 lvl _ hin
    rw [hopen] at hsuccess
    exact Option.some_ne_none e hsuccess

theorem isEmpty_false_of_ne_nil {α : Type} {l : List α} (h : l ≠ []) :
    l.isEmpty = false := by
  cases l with
  | nil => exact absurd rfl h
  | cons a t => rfl

theorem flush_state_writers (cfg : LogsConfig) (env : FlushEnv)
    (st : FreeLogLayerState) :
    (flush cfg env st).state.file_writers = (initFileWriters cfg env st).2.1 := by
  by_cases hb : st.buffer = []
  · rw [flush_empty_case cfg env st hb]
  · have hbe := isEmpty_false_of_ne_nil hb
    cases hab : (remoteLoopAux env st.buffer cfg.api_writers 0).2.2 with
    | none => rw [flush_noabort_case cfg env st hbe hab]
    | some e => rw [flush_abort_case cfg env st e hbe hab]

theorem flush_trace_mem (cfg : LogsConfig) (env : FlushEnv)
    (st : FreeLogLayerState) (op : Op) (h : op ∈ (flush cfg env st).trace) :
    op ∈ (initFileWriters cfg env st).2.2 ∨
    op ∈ (remoteLoopAux env st.buffer cfg.api_writers 0).2.1 ∨
    op ∈ (fileStage cfg env st).2 := by
  by_cases hb : st.buffer = []
  · rw [flush_empty_case cfg env st hb] at h
    exact Or.inl h
  · have hbe := isEmpty_false_of_ne_nil hb
    cases hab : (remoteLoopAux env st.buffer cfg.api_writers 0).2.2 with
    | none =>
        rw [flush_noabort_case cfg env st hbe hab] at h
        dsimp only at h
        rcases List.mem_append.1 h with h2 | h2
        · rcases List.mem_append.1 h2 with h3 | h3
          · exact Or.inl h3
          · exact Or.inr (Or.inl h3)
        · exact Or.inr (Or.inr h2)
    | some e =>
        rw [flush_abort_case cfg env st e hbe hab] at h
        dsimp only at h
        rcases List.mem_append.1 h with h2 | h2
        · exact Or.inl h2
        · exact Or.inr (Or.inl h2)

theorem flush_attempts_remote (cfg : LogsConfig) (env : FlushEnv)
    (st : FreeLogLayerState)
    (H : ∀ i, (handleResponse (env.send i)).isAbort = false)
    (hb : st.buffer ≠ []) (j : Nat) (hj : j < cfg.api_writers.length)
    (hne : destEntries st.buffer (cfg.api_writers.get ⟨j, hj⟩).log_level ≠ []) :
    attemptsRemote (flush cfg env st).trace j = true := by
  have hbe := isEmpty_false_of_ne_nil hb
  have hab : (remoteLoopAux env st.buffer cfg.api_writers 0).2.2 = none :=
    remoteLoopAux_no_abort env st.buffer H cfg.api_writers 0
  have hne' := isEmpty_false_of_ne_nil hne
  have hatt := remoteLoopAux_attempts env st.buffer H cfg.api_writers 0 j hj hne'
  rw [Nat.zero_add] at hatt
  rcases (attemptsRemote_iff _ j).1 hatt with ⟨b, hbmem⟩
  rw [flush_noabort_case cfg env st hbe hab]
  dsimp only
  exact (attemptsRemote_iff _ j).2
    ⟨b, List.mem_append.2 (Or.inl (List.mem_append.2 (Or.inr hbmem)))⟩

theorem flush_file_ops (cfg : LogsConfig) (env : FlushEnv)
    (st : FreeLogLayerState) (ws : List (Level × Nat))
    (H : ∀ i, (handleResponse (env.send i)).isAbort = false)
    (hb : st.buffer ≠ [])
    (hws : (flush cfg env st).state.file_writers = some ws) :
    ∀ op ∈ (fileLoopAux env st.buffer ws).2, op ∈ (flush cfg env st).trace := by
  intro op hop
  have hbe := isEmpty_false_of_ne_nil hb
  have hab : (remoteLoopAux env st.buffer cfg.api_writers 0).2.2 = none :=
    remoteLoopAux_no_abort env st.buffer H cfg.api_writers 0
  rw [flush_state_writers] at hws
  have hfs : (fileStage cfg env st).2 = (fileLoopAux env st.buffer ws).2 := by
    simp [fileStage, hws]
  rw [flush_noabort_case cfg env st hbe hab]
  dsimp only
  exact List.mem_append.2 (Or.inr (by rw [hfs]; exact hop))

/-- C1 (amended): within `flush()`, a transport failure, a non-success
status, a response-body parse failure, a `false` success indicator, or a
file open/write/buffer-flush failure is collected into the aggregated
result and never prevents delivery attempts to the remaining remote and
file destinations; but a parsed 200-response body whose `success` field is
absent or not a boolean is propagated out of `flush()` immediately by the
`?` on `ok_or(..)`, skipping all remaining destinations.  Provided no
destination's response takes that one propagating shape, every remote
destination with a non-empty filtered subset is attempted, every
initialized file writer receives its write and buffer-flush attempts, and
the result is exactly the aggregation of the collected failures. -/
theorem flush_isolates_destination_failures (cfg : LogsConfig) (env : FlushEnv)
    (st : FreeLogLayerState)
    (H : ∀ i, (handleResponse (env.send i)).isAbort = false)
    (hb : st.buffer ≠ []) :
    (∀ j, (hj : j < cfg.api_writers.length) →
       destEntries st.buffer (cfg.api_writers.get ⟨j, hj⟩).log_level ≠ [] →
       attemptsRemote (flush cfg env st).trace j = true) ∧
    (∀ ws lvl idx, (flush cfg env st).state.file_writers = some ws →
       (lvl, idx) ∈ ws →
       Op.file_flush idx ∈ (flush cfg env st).trace ∧
       (destEntries st.buffer lvl ≠ [] →
         ∃ l, Op.file_write idx l ∈ (flush cfg env st).trace)) ∧
    (flush cfg env st).result = aggregate (flush cfg env st).collected := by
  have hbe := isEmpty_false_of_ne_nil hb
  have hab : (remoteLoopAux env st.buffer cfg.api_writers 0).2.2 = none :=
    remoteLoopAux_no_abort env st.buffer H cfg.api_writers 0
  refine ⟨fun j hj hne => flush_attempts_remote cfg env st H hb j hj hne,
    fun ws lvl idx hws hmem => ?_, ?_⟩
  · constructor
    · exact flush_file_ops cfg env st ws H hb hws _
        (fileLoopAux_flushes env st.buffer ws lvl idx hmem)
    · intro hne
      rcases fileLoopAux_writes env st.buffer ws lvl idx hmem hne with ⟨l, hl⟩
      exact ⟨l, flush_file_ops cfg env st ws H hb hws _ hl⟩
  · rw [flush_noabort_case cfg env st hbe hab]

/-- The parsed body `{"success": true}` used by concrete scenarios. -/
def successBody : Json := .obj [("success", .bool true)]

/-- An environment in which every send gets a 200 response with a true
success indicator and every file operation succeeds. -/
def okEnv : FlushEnv :=
  ⟨fun _ => .response ⟨200, some "t", .ok successBody⟩,
   fun _ => ⟨none, fun _ => none, none⟩⟩

/-- A concrete Info-severity record. -/
def sampleRecord : LogEntryRequest := ⟨.Info, [.String "boom"], 7, none, none, none, none⟩

/-- A remote destination at the given minimum severity. -/
def apiDest (lvl : Level) : ApiWriterConfig := ⟨"ua", "http://a", lvl⟩

/-- A state holding one pending Info record, nothing initialized. -/
def oneRecordState : FreeLogLayerState := ⟨[sampleRecord], none, none⟩

/-- Two remote destinations, both at minimum Trace. -/
def twoApiCfg : LogsConfig := ⟨"ua", [apiDest .Trace, apiDest .Trace], [], .Trace, true, true⟩

/-- An environment in which destination 0 answers 200 with a body lacking
the `success` field and destination 1 answers 200 with success. -/
def absentSuccessEnv : FlushEnv :=
  ⟨fun i => if i = 0 then .response ⟨200, some "t", .ok (.obj [])⟩
            else .response ⟨200, some "t", .ok successBody⟩,
   fun _ => ⟨none, fun _ => none, none⟩⟩

/-- C1 counterexample: with two remote destinations and a pending record
that qualifies for both, a 200 response at destination 0 whose parsed body
has no `success` field makes `flush()` return that error immediately —
destination 1, although its filtered subset is non-empty, is never
attempted, contradicting the claim that every per-destination failure is
converted into an aggregated entry without preventing the other
destinations. -/
theorem flush_absent_success_aborts_cex :
    destEntries oneRecordState.buffer
        (twoApiCfg.api_writers.get ⟨1, by decide⟩).log_level ≠ [] ∧
    attemptsRemote (flush twoApiCfg absentSuccessEnv oneRecordState).trace 1 = false ∧
    (flush twoApiCfg absentSuccessEnv oneRecordState).result =
      .error (.Unsuccessful ("Received unsuccessful response: " ++ jsonDebug (.obj []))) := by
  refine ⟨by decide, by decide, rfl⟩

/-- One remote destination (Trace) and one file destination (Trace). -/
def oneEachCfg : LogsConfig :=
  ⟨"ua", [apiDest .Trace], [⟨"/tmp/a", .Trace⟩], .Trace, true, true⟩

/-- Witness for `flush_isolates_destination_failures`: with one remote and
one file destination, a success-everywhere environment and one pending
record, the remote destination is POSTed, the file writer receives a write
and a buffer-flush, and the result aggregates the collected failures. -/
theorem flush_isolates_destination_failures_witness :
    attemptsRemote (flush oneEachCfg okEnv oneRecordState).trace 0 = true ∧
    Op.file_flush 0 ∈ (flush oneEachCfg okEnv oneRecordState).trace ∧
    (∃ l, Op.file_write 0 l ∈ (flush oneEachCfg okEnv oneRecordState).trace) ∧
    (flush oneEachCfg okEnv oneRecordState).result =
      aggregate (flush oneEachCfg okEnv oneRecordState).collected := by
  have h := flush_isolates_destination_failures oneEachCfg okEnv oneRecordState
    (fun i => rfl) (by decide)
  have h2 := h.2.1 [(Level.Trace, 0)] Level.Trace 0 rfl (by decide)
  exact ⟨h.1 0 (by decide) (by decide), h2.1, h2.2 (by decide), h.2.2⟩

/-- C4 (amended): a remote destination whose filtered subset is empty is
skipped entirely (no POST, hence no zero-length send); a file destination
whose filtered subset is empty receives no write — but, unlike what the
claim states, its write-buffer flush is still performed on every flush
whose drained batch is non-empty and in which no remote destination's
processing aborts `flush()` (a 200 body lacking a boolean `success` field;
on such an aborted cycle the file loop is skipped entirely), because the
file loop, when reached, calls `writer.flush()` unconditionally. -/
theorem empty_filtered_skips (cfg : LogsConfig) (env : FlushEnv)
    (st : FreeLogLayerState) :
    (∀ j, (hj : j < cfg.api_writers.length) →
       destEntries st.buffer (cfg.api_writers.get ⟨j, hj⟩).log_level = [] →
       attemptsRemote (flush cfg env st).trace j = false) ∧
    (∀ ws idx, (flush cfg env st).state.file_writers = some ws →
       (∀ lvl, (lvl, idx) ∈ ws → destEntries st.buffer lvl = []) →
       ∀ l, Op.file_write idx l ∉ (flush cfg env st).trace) ∧
    (∀ ws lvl idx, st.buffer ≠ [] →
       (∀ i, (handleResponse (env.send i)).isAbort = false) →
       (flush cfg env st).state.file_writers = some ws → (lvl, idx) ∈ ws →
       Op.file_flush idx ∈ (flush cfg env st).trace) := by
  refine ⟨?_, ?_, ?_⟩
  · intro j hj hempty
    apply attemptsRemote_eq_false
    intro b hbmem
    rcases flush_trace_mem cfg env st _ hbmem with h | h | h
    · rcases initFileWriters_ops_open cfg env st _ h with ⟨i, heq⟩
      exact absurd heq (by simp)
    · rcases remoteLoopAux_send_sound env st.buffer cfg.api_writers 0 j b h with
        ⟨j2, hj2, hjj, hne⟩
      rw [Nat.zero_add] at hjj
      subst hjj
      have hsame : cfg.api_writers.get ⟨j, hj2⟩ = cfg.api_writers.get ⟨j, hj⟩ := rfl
      rw [hsame, hempty] at hne
      simp at hne
    · unfold fileStage at h
      cases hw : (initFileWriters cfg env st).2.1 with
      | none => rw [hw] at h; simp at h
      | some ws =>
          rw [hw] at h
          rcases fileLoopAux_ops_file env st.buffer ws _ h with ⟨i, l, heq⟩ | ⟨i, heq⟩ <;>
            exact absurd heq (by simp)
  · intro ws idx hws hempty l hl
    rcases flush_trace_mem cfg env st _ hl with h | h | h
    · rcases initFileWriters_ops_open cfg env st _ h with ⟨i, heq⟩
      exact absurd heq (by simp)
    · rcases remoteLoopAux_ops_send env st.buffer cfg.api_writers 0 _ h with ⟨i, b, heq⟩
      exact absurd heq (by simp)
    · rw [flush_state_writers] at hws
      unfold fileStage at h
      rw [hws] at h
      exact fileLoopAux_no_writes_when_empty env st.buffer idx ws hempty l h
  · intro ws lvl idx hb H hws hmem
    exact flush_file_ops cfg env st ws H hb hws _
      (fileLoopAux_flushes env st.buffer ws lvl idx hmem)

/-- One file destination at minimum Error, no remote destinations. -/
def errorFileCfg : LogsConfig := ⟨"ua", [], [⟨"/tmp/a", .Error⟩], .Trace, true, true⟩

/-- A state with one pending Info record and an already-initialized writer
for the Error-minimum file destination. -/
def initializedFileState : FreeLogLayerState :=
  ⟨[sampleRecord], some [(Level.Error, 0)], none⟩

/-- C4 counterexample: with one pending Info record and a file destination
at minimum Error, the filtered subset is empty, yet the flush's trace is
exactly a write-buffer flush on that destination — a file operation the
claim says must not happen. -/
theorem file_flush_despite_empty_filtered_cex :
    destEntries initializedFileState.buffer Level.Error = [] ∧
    (flush errorFileCfg okEnv initializedFileState).trace = [Op.file_flush 0] :=
  ⟨rfl, rfl⟩

/-- One remote and one file destination, both at minimum Error. -/
def errorBothCfg : LogsConfig :=
  ⟨"ua", [apiDest .Error], [⟨"/tmp/a", .Error⟩], .Trace, true, true⟩

/-- Witness for `empty_filtered_skips`: an Info record against Error-minimum
destinations — the remote gets no POST, the file gets no write, but the file
write buffer is still flushed. -/
theorem empty_filtered_skips_witness :
    attemptsRemote (flush errorBothCfg okEnv initializedFileState).trace 0 = false ∧
    (∀ l, Op.file_write 0 l ∉ (flush errorBothCfg okEnv initializedFileState).trace) ∧
    Op.file_flush 0 ∈ (flush errorBothCfg okEnv initializedFileState).trace := by
  have h := empty_filtered_skips errorBothCfg okEnv initializedFileState
  have hws : (flush errorBothCfg okEnv initializedFileState).state.file_writers =
      some [(Level.Error, 0)] := rfl
  refine ⟨h.1 0 (by decide) (by decide), h.2.1 [(Level.Error, 0)] 0 hws ?_ ,
    h.2.2 [(Level.Error, 0)] Level.Error 0 (by decide) (fun i => rfl) hws (by decide)⟩
  intro lvl hm
  have hlvl : lvl = Level.Error := by simpa using hm
  rw [hlvl]
  rfl

/-- C7 (amended): `flush()` records a status failure for a remote
destination exactly when the response status differs from 200 (not from the
whole 2xx class), in which case the recorded error is `Unsuccessful`
carrying the response text; only a status equal to 200 makes the dispatcher
proceed to inspect the response body. -/
theorem status_check_amended (r : HttpResponse) :
    (r.status ≠ 200 →
      handleResponse (.response r) =
        .fail (.Unsuccessful (r.text.getD "(failed to get response text)"))) ∧
    (r.status = 200 → handleResponse (.response r) = responseBodyStep r.body) := by
  constructor <;> intro h <;> simp [handleResponse, h]

/-- Witness for `status_check_amended` at statuses 204 and 200. -/
theorem status_check_amended_witness :
    handleResponse (.response ⟨204, some "no content", .ok successBody⟩) =
      .fail (.Unsuccessful "no content") ∧
    handleResponse (.response ⟨200, some "t", .ok successBody⟩) =
      responseBodyStep (Except.ok successBody) :=
  ⟨(status_check_amended ⟨204, some "no content", .ok successBody⟩).1 (by decide),
   (status_check_amended ⟨200, some "t", .ok successBody⟩).2 rfl⟩

/-- One remote destination at minimum Trace, no files. -/
def oneApiCfg : LogsConfig := ⟨"ua", [apiDest .Trace], [], .Trace, true, true⟩

/-- An environment answering every send with status 204 (a 2xx success
status) and a parseable body with a true success indicator. -/
def status204Env : FlushEnv :=
  ⟨fun _ => .response ⟨204, some "no content", .ok successBody⟩,
   fun _ => ⟨none, fun _ => none, none⟩⟩

/-- C7 counterexample: a 204 response — inside the 2xx success class, with a
parseable body carrying `success: true` — is nevertheless recorded as a
status failure for the destination, because the code compares the status
against exactly 200. -/
theorem status_204_recorded_failure_cex :
    (200 ≤ 204 ∧ 204 < 300) ∧
    (flush oneApiCfg status204Env oneRecordState).result =
      .error (.Unsuccessful "no content") ∧
    (flush oneApiCfg status204Env oneRecordState).collected =
      [.Unsuccessful "no content"] :=
  ⟨by decide, rfl, rfl⟩

/-- C8 (amended): no destination is excluded by an earlier cycle's
write/send failure — on any later cycle whose drained batch is non-empty
and which no remote destination's absent-success body aborts, every remote
destination with qualifying records is attempted anew and every file
destination retained in the initialized writer list receives its write and
write-buffer-flush attempts again — but a file destination whose backing
file failed to open during the initializing flush is left out of the writer
list, and since the writer list is rebuilt on no later flush, that
destination is never opened, written or flushed again in any subsequent
cycle. -/
theorem failed_open_exclusion (cfg : LogsConfig) (env : FlushEnv)
    (st : FreeLogLayerState) (idx : Nat) :
    (∀ ws, st.file_writers = some ws → idx ∉ ws.map Prod.snd →
       (flush cfg env st).state.file_writers = some ws ∧
       ∀ op ∈ (flush cfg env st).trace, opTouchesFile op idx = false) ∧
    (∀ e, st.file_writers = none → idx < cfg.file_writers.length →
       (env.file idx).openResult = some e →
       ∃ ws, (flush cfg env st).state.file_writers = some ws ∧
         idx ∉ ws.map Prod.snd) ∧
    (∀ j, (hj : j < cfg.api_writers.length) → st.buffer ≠ [] →
       (∀ i, (handleResponse (env.send i)).isAbort = false) →
       destEntries st.buffer (cfg.api_writers.get ⟨j, hj⟩).log_level ≠ [] →
       attemptsRemote (flush cfg env st).trace j = true) ∧
    (∀ ws lvl, st.buffer ≠ [] →
       (∀ i, (handleResponse (env.send i)).isAbort = false) →
       st.file_writers = some ws → (lvl, idx) ∈ ws →
       Op.file_flush idx ∈ (flush cfg env st).trace ∧
       (destEntries st.buffer lvl ≠ [] →
         ∃ l, Op.file_write idx l ∈ (flush cfg env st).trace)) := by
  refine ⟨?_, ?_, ?_, ?_⟩
  · intro ws hst hnot
    have hinit := initFileWriters_some cfg env st ws hst
    constructor
    · rw [flush_state_writers, hinit]
    · intro op hop
      rcases flush_trace_mem cfg env st op hop with h | h | h
      · rw [hinit] at h
        simp at h
      · rcases remoteLoopAux_ops_send env st.buffer cfg.api_writers 0 op h with
          ⟨i, b, rfl⟩
        rfl
      · unfold fileStage at h
        rw [hinit] at h
        exact fileLoopAux_not_touching env st.buffer idx ws hnot op h
  · intro e hst hlen hopen
    rcases initFileWriters_none_excludes cfg env st idx e hst hlen hopen with
      ⟨ws, hws, hnot⟩
    exact ⟨ws, by rw [flush_state_writers, hws], hnot⟩
  · intro j hj hb H hne
    exact flush_attempts_remote cfg env st H hb j hj hne
  · intro ws lvl hb H hst hmem
    have hws : (flush cfg env st).state.file_writers = some ws := by
      rw [flush_state_writers, initFileWriters_some cfg env st ws hst]
    refine ⟨flush_file_ops cfg env st ws H hb hws _
      (fileLoopAux_flushes env st.buffer ws lvl idx hmem), fun hne => ?_⟩
    rcases fileLoopAux_writes env st.buffer ws lvl idx hmem hne with ⟨l, hl⟩
    exact ⟨l, flush_file_ops cfg env st ws H hb hws _ hl⟩

/-- One file destination at minimum Trace, no remote destinations. -/
def oneFileTraceCfg : LogsConfig := ⟨"ua", [], [⟨"/tmp/a", .Trace⟩], .Trace, true, true⟩

/-- An environment in which every file open fails. -/
def openFailEnv : FlushEnv :=
  ⟨fun _ => .response ⟨200, some "t", .ok successBody⟩,
   fun _ => ⟨some "denied", fun _ => none, none⟩⟩

/-- A concrete Error-severity event. -/
def errorEvent : Event := ⟨.Error, some "boom", none, none, none, none, none⟩

/-- C8 counterexample: the initializing flush fails to open the only file
destination, leaving an empty writer list; an Error record then arrives and
passes the destination's Trace filter, yet the next flush performs no
operation whatsoever on that destination — it is permanently excluded,
contradicting the claim that a failed destination is attempted again on a
later cycle. -/
theorem failed_open_not_retried_cex :
    (flush oneFileTraceCfg openFailEnv FreeLogLayer.new).state.file_writers = some [] ∧
    destEntries (on_event oneFileTraceCfg errorEvent 5
        (flush oneFileTraceCfg openFailEnv FreeLogLayer.new).state).buffer
      Level.Trace ≠ [] ∧
    (flush oneFileTraceCfg okEnv (on_event oneFileTraceCfg errorEvent 5
        (flush oneFileTraceCfg openFailEnv FreeLogLayer.new).state)).trace = [] :=
  ⟨rfl, by decide, rfl⟩

/-- A state with one pending record and an initialized, empty writer list
(the aftermath of an initializing flush whose only open failed). -/
def excludedWriterState : FreeLogLayerState := ⟨[sampleRecord], some [], none⟩

/-- A state with one pending record and an initialized writer list that
retained the successfully opened file destination 0. -/
def retainedWriterState : FreeLogLayerState :=
  ⟨[sampleRecord], some [(Level.Trace, 0)], none⟩

/-- Witness for `failed_open_exclusion`: a state whose writer list excludes
destination 0 keeps excluding it while still POSTing to the remote
destination, a fresh state whose open of destination 0 fails produces a
writer list excluding 0, and a state whose writer list retained destination
0 writes and buffer-flushes it again. -/
theorem failed_open_exclusion_witness :
    ((flush oneEachCfg okEnv excludedWriterState).state.file_writers = some [] ∧
      ∀ op ∈ (flush oneEachCfg okEnv excludedWriterState).trace,
        opTouchesFile op 0 = false) ∧
    (∃ ws, (flush oneFileTraceCfg openFailEnv oneRecordState).state.file_writers =
        some ws ∧ 0 ∉ ws.map Prod.snd) ∧
    attemptsRemote (flush oneEachCfg okEnv excludedWriterState).trace 0 = true ∧
    Op.file_flush 0 ∈ (flush oneEachCfg okEnv retainedWriterState).trace ∧
    (∃ l, Op.file_write 0 l ∈ (flush oneEachCfg okEnv retainedWriterState).trace) := by
  have h4 := (failed_open_exclusion oneEachCfg okEnv retainedWriterState 0).2.2.2
    [(Level.Trace, 0)] Level.Trace (by decide) (fun i => rfl) rfl (by decide)
  exact ⟨(failed_open_exclusion oneEachCfg okEnv excludedWriterState 0).1 [] rfl (by simp),
    (failed_open_exclusion oneFileTraceCfg openFailEnv oneRecordState 0).2.1 "denied"
      rfl (by decide) rfl,
    (failed_open_exclusion oneEachCfg okEnv excludedWriterState 0).2.2.1 0 (by decide)
      (by decide) (fun i => rfl) (by decide),
    h4.1, h4.2 (by decide)⟩

end FreeLog
